import Mathlib

/- Verification of the flog logging library core: BasicFLog (flog.h),
   CallOnExit (call-on-exit.h) and CoroutineLock (coroutine-lock.h), in a
   shallow embedding. Stateful C++ code becomes explicit state passing;
   stream writes become explicit write traces; throwing operations return
   Except; abrupt process termination is an Option exit code. -/

/- ===================== CoroutineLock (coroutine-lock.h) =================== -/

/-- CoroutineLock state: the single volatile bool flag_, initially false. -/
structure CoroutineLock where
  flag : Bool
  deriving DecidableEq

namespace CoroutineLock

/-- Member lock, coroutine-lock.h lines 34-38: throws when the flag is already
set, otherwise sets it. -/
def lock (m : CoroutineLock) : Except String CoroutineLock :=
  if m.flag then Except.error "Coroutine lock failed."
  else Except.ok { flag := true }

/-- Member try_lock, lines 40-44: returns false when the flag is already set,
without changing it; otherwise sets the flag and returns the assigned value,
true. It performs no waiting of any kind. -/
def try_lock (m : CoroutineLock) : Bool × CoroutineLock :=
  if m.flag = true then (false, m)
  else (true, { flag := true })

/-- Member unlock, lines 46-50: throws when the flag is not set, otherwise
clears it. -/
def unlock (m : CoroutineLock) : Except String CoroutineLock :=
  if m.flag = false then Except.error "Unlocking unlocked coroutine lock."
  else Except.ok { flag := false }

/-- Destructor, lines 52-55: calls exit(-1) when the flag is still set. The
result some c models abrupt process termination with exit code c; none models
normal destruction with the process continuing. -/
def destruct (m : CoroutineLock) : Option Int :=
  if m.flag = true then some (-1) else none

end CoroutineLock

/-- Success test for a modelled throwing operation: true when no exception was
thrown. -/
def exceptOk {e a : Type} : Except e a → Bool
  | Except.ok _ => true
  | Except.error _ => false

/- ====================== CallOnExit (call-on-exit.h) ====================== -/

/-- CallOnExit stores a zero argument action (field call_on_destroy_). The
stored action is modelled by the outcome of invoking it: Except.ok for normal
return, Except.error for a raised exception of type e. The class deletes its
copy constructor and copy assignment, so each object is destroyed exactly
once at the end of its scope. -/
structure CallOnExit (e : Type) where
  call_on_destroy : Except e Unit

namespace CallOnExit

/-- Member trigger, call-on-exit.h line 16: an empty function; its only
purpose is to odr-use the object so that a static or thread_local guard is
actually constructed. -/
def trigger {e : Type} (_ : CallOnExit e) : Unit := ()

/-- Destructor, lines 18-22: runs the stored action exactly once inside a
try block whose catch-all clause discards every exception. The result is the
number of times the action ran, paired with the exception escaping the
destructor, if any. -/
def destruct {e : Type} (c : CallOnExit e) : Nat × Option e :=
  match c.call_on_destroy with
  | Except.ok _ => (1, none)
  | Except.error _ => (1, none)

/-- Whole lifetime of one guard: construction, then n trigger calls (each of
which runs the action zero times), then the single destructor run at the end
of the scope. Returns the total number of action runs over the lifetime and
the exception, if any, escaping the destructor. -/
def lifetime {e : Type} (c : CallOnExit e) : Nat → Nat × Option e
  | 0 => destruct c
  | n + 1 =>
      let _ := trigger c
      lifetime c n

end CallOnExit

/- ==================== BasicFLog core model (flog.h) ====================== -/

namespace Flog

/-- One plain argument of a log call, modelled by how its insertion into the
format stream behaves: val s writes the text s and leaves the stream good;
bad puts the stream into a failed state so that the insertion expression
converts to false. -/
inductive SArg where
  | val : String → SArg
  | bad : SArg
  deriving DecidableEq

/-- One argument of a top level log call. plain wraps a plain argument.
reentrant site inner text models an object whose stream inserter itself
invokes the logging entry point on the same thread: inserting it first runs
FLog()(inner...) through the operator() instantiation identified by site and
then writes text to the outer format stream, leaving it good. -/
inductive Arg where
  | plain : SArg → Arg
  | reentrant : Nat → List SArg → String → Arg
  deriving DecidableEq

/-- Text a plain argument writes to the stream. -/
def valText : SArg → String
  | SArg.val s => s
  | SArg.bad => ""

/-- Whether a plain argument inserts successfully. -/
def isVal : SArg → Bool
  | SArg.val _ => true
  | SArg.bad => false

/-- Concatenated insertion text of a list of plain arguments. -/
def sargsText : List SArg → String
  | [] => ""
  | a :: rest => valText a ++ sargsText rest

/-- Whether a top level argument is a plainly serializing value. -/
def argIsVal : Arg → Bool
  | Arg.plain (SArg.val _) => true
  | _ => false

/-- Text a top level argument writes to the format stream of its own call. -/
def argText : Arg → String
  | Arg.plain a => valText a
  | Arg.reentrant _ _ t => t

/-- Concatenated own text of the arguments of one call. -/
def argsText : List Arg → String
  | [] => ""
  | a :: rest => argText a ++ argsText rest

/-- Thread local state of BasicFLog for one thread. localLogs is the thread
buffer local_logs_ (flog.h line 88). held is the set of operator()
instantiation sites whose CoroutineLock mtx is currently held on this thread:
mtx (flog.h line 46) is a static thread_local local variable of a member
function template, so every distinct argument type list instantiates a
distinct operator() specialization owning a distinct mtx object; the number
site identifies such an instantiation. constructed records whether the
thread_local guard merge_local_logs_to_global_ (flog.h lines 95 and 118-121)
has been dynamically initialized on this thread: a thread_local with dynamic
initialization is constructed at its first odr-use on the thread, which is
exactly what the trigger call in the BasicFLog constructor (lines 21-24)
forces; a thread on which no BasicFLog is ever constructed never initializes
the guard. -/
structure ThreadState where
  localLogs : String
  held : List Nat
  constructed : Bool
  deriving DecidableEq

/-- Thread state at thread start: empty buffer, no lock held, merge guard not
yet constructed. -/
def initialThread : ThreadState :=
  { localLogs := "", held := [], constructed := false }

/-- AddToLog (flog.h lines 74-85) applied to plain arguments: arguments are
inserted left to right into the format stream; the first failed insertion
returns -1 at once, otherwise the result is 0. The returned string is the
format stream content (only consulted by the caller when the result is 0). -/
def AddToLogPlain (format : String) : List SArg → Int × String
  | [] => (0, format)
  | SArg.val s :: rest => AddToLogPlain (format ++ s) rest
  | SArg.bad :: _ => (-1, format)

/-- A complete nested log call FLog()(args...) whose arguments are all plain
values: the form a reentrant argument invokes. It models, in order: the
BasicFLog constructor (flog.h lines 21-24) triggering and hence constructing
the thread_local merge guard; operator() (lines 42-57) try-locking the mtx of
the given instantiation site and giving up with -1 when it is already held;
otherwise AddToLog on a fresh format stream, appending the format text to
local_logs_ exactly when AddToLog returned 0, and the unique_lock releasing
the mtx at scope exit. -/
def logCallPlain (st0 : ThreadState) (site : Nat) (args : List SArg) :
    Int × ThreadState :=
  let st := { st0 with constructed := true }
  if site ∈ st.held then (-1, st)
  else
    let r := AddToLogPlain "" args
    let st2 := { st with held := site :: st.held }
    let st3 :=
      if r.1 = 0 then { st2 with localLogs := st2.localLogs ++ r.2 } else st2
    (r.1, { st3 with held := st3.held.erase site })

/-- AddToLog (flog.h lines 74-85) for a top level call: inserting a plain
argument appends its text to the format stream or fails; inserting a
reentrant argument first runs the nested log call on the same thread, which
may mutate the thread state, and then writes the text of the object itself
to the format stream. -/
def AddToLog (st : ThreadState) (format : String) :
    List Arg → Int × String × ThreadState
  | [] => (0, format, st)
  | Arg.plain (SArg.val s) :: rest => AddToLog st (format ++ s) rest
  | Arg.plain SArg.bad :: _ => (-1, format, st)
  | Arg.reentrant site inner text :: rest =>
      AddToLog (logCallPlain st site inner).2 (format ++ text) rest

/-- One top level log call FLog()(args...): the first operator() overload
(flog.h lines 33-40) builds a fresh format stream and delegates to the second
overload (lines 42-57), which try-locks the mtx of its instantiation site,
returns -1 when it is already held, runs AddToLog, appends the format text to
local_logs_ exactly when AddToLog returned 0, and releases the mtx. The
BasicFLog constructor runs first and triggers the thread_local merge guard. -/
def logCall (st0 : ThreadState) (site : Nat) (args : List Arg) :
    Int × ThreadState :=
  let st := { st0 with constructed := true }
  if site ∈ st.held then (-1, st)
  else
    let r := AddToLog { st with held := site :: st.held } "" args
    let st3 :=
      if r.1 = 0 then { r.2.2 with localLogs := r.2.2.localLogs ++ r.2.1 }
      else r.2.2
    (r.1, { st3 with held := st3.held.erase site })

/-- A sequence of top level log calls made by one thread, each given by the
operator() instantiation site it enters and its argument list. -/
def runCalls (st : ThreadState) : List (Nat × List Arg) → ThreadState
  | [] => st
  | c :: rest => runCalls (logCall st c.1 c.2).2 rest

/-- Concatenated serialized text of a sequence of calls, in call order. -/
def callsText : List (Nat × List Arg) → String
  | [] => ""
  | c :: rest => argsText c.2 ++ callsText rest

/-- Identity of an output sink: clog is the default std::clog stream, custom i
is the stream installed by SetOutput with identity i. -/
inductive Sink where
  | clog : Sink
  | custom : Nat → Sink
  deriving DecidableEq

/-- Process wide state of BasicFLog: the global log store logs_ (flog.h line
87) and the installed sink output_ (line 92); none means SetOutput was never
called. -/
structure GlobalState where
  logs : List String
  output : Option Nat
  deriving DecidableEq

/-- SetOutput (flog.h lines 28-31): move-assigns the new sink into output_,
replacing whatever was stored before. -/
def SetOutput (g : GlobalState) (sink : Nat) : GlobalState :=
  { g with output := some sink }

/-- The sink flush writes to (flog.h line 60): the installed stream when
output_ is non-null, std::clog otherwise. -/
def activeSink (g : GlobalState) : Sink :=
  match g.output with
  | none => Sink.clog
  | some i => Sink.custom i

/-- OutputAllLogs (flog.h lines 59-64): writes every stored block, in store
order, to the active sink. The loop only reads logs_. The result is the
global state after the call together with the sequence of write operations
performed, each a sink paired with the text written verbatim. -/
def OutputAllLogs (g : GlobalState) : GlobalState × List (Sink × String) :=
  (g, g.logs.foldl (fun ws l => ws ++ [(activeSink g, l)]) [])

/-- Total text a sequence of writes delivers to the given sink. -/
def writtenTo (s : Sink) : List (Sink × String) → String
  | [] => ""
  | w :: rest => (if w.1 = s then w.2 else "") ++ writtenTo s rest

/-- MergeLocalLogsToGlobal (flog.h lines 66-71): push_back of the moved
thread buffer onto logs_ under the merge mutex; the moved-from thread buffer
becomes empty. -/
def MergeLocalLogsToGlobal (g : GlobalState) (st : ThreadState) :
    GlobalState × ThreadState :=
  ({ g with logs := g.logs ++ [st.localLogs] }, { st with localLogs := "" })

/-- Teardown of one thread. When the thread_local guard
merge_local_logs_to_global_ was constructed on this thread, its CallOnExit
destructor runs MergeLocalLogsToGlobal exactly once at thread exit; when the
thread never odr-used it (no BasicFLog constructor ran on the thread), the
guard was never constructed, so no destructor and no merge runs. Returns the
new global state and the number of merge runs performed. -/
def threadTeardown (g : GlobalState) (st : ThreadState) : GlobalState × Nat :=
  if st.constructed then ((MergeLocalLogsToGlobal g st).1, 1) else (g, 0)

/-- Whole lifetime of one thread against a given global state: the thread
starts fresh, performs the given top level log calls, and exits. -/
def threadLifetime (g : GlobalState) (calls : List (Nat × List Arg)) :
    GlobalState × Nat :=
  threadTeardown g (runCalls initialThread calls)

/-- Concatenation of a list of text blocks. -/
def joinAll : List String → String
  | [] => ""
  | s :: rest => s ++ joinAll rest

/-- The two calls of the first spec scenario: log(1, " ", 2) then log("x").
The two calls have different argument type lists, hence distinct operator()
instantiation sites. -/
def exampleCalls : List (Nat × List Arg) :=
  [ (0, [Arg.plain (SArg.val "1"), Arg.plain (SArg.val " "),
         Arg.plain (SArg.val "2")]),
    (1, [Arg.plain (SArg.val "x")]) ]

end Flog

/- ============================ Helper lemmas ============================== -/

theorem str_append_assoc (a b c : String) : a ++ b ++ c = a ++ (b ++ c) := by
  apply String.ext
  simp [String.data_append, List.append_assoc]

namespace Flog

theorem addToLogPlain_allVal (l : List SArg) :
    ∀ format : String, (∀ a ∈ l, isVal a = true) →
      AddToLogPlain format l = (0, format ++ sargsText l) := by
  induction l with
  | nil =>
      intro f _
      simp [AddToLogPlain, sargsText]
  | cons a rest ih =>
      intro f hv
      cases a with
      | val s =>
          have hr : ∀ a ∈ rest, isVal a = true :=
            fun a ha => hv a (List.mem_cons_of_mem _ ha)
          rw [show AddToLogPlain f (SArg.val s :: rest)
                = AddToLogPlain (f ++ s) rest from rfl, ih (f ++ s) hr]
          simp [sargsText, valText, str_append_assoc]
      | bad =>
          have := hv SArg.bad (List.mem_cons_self _ _)
          simp [isVal] at this

theorem logCallPlain_mem (st : ThreadState) (site : Nat) (args : List SArg)
    (h : site ∈ st.held) :
    logCallPlain st site args = (-1, { st with constructed := true }) := by
  simp [logCallPlain, h]

theorem logCallPlain_notMem_allVal (st : ThreadState) (site : Nat)
    (args : List SArg) (h : site ∉ st.held)
    (hv : ∀ a ∈ args, isVal a = true) :
    logCallPlain st site args
      = (0, { localLogs := st.localLogs ++ sargsText args,
              held := st.held, constructed := true }) := by
  simp [logCallPlain, h, addToLogPlain_allVal args "" hv, String.empty_append,
    List.erase_cons_head]

theorem logCallPlain_held (st : ThreadState) (site : Nat) (args : List SArg) :
    (logCallPlain st site args).2.held = st.held := by
  by_cases h : site ∈ st.held
  · simp [logCallPlain, h]
  · by_cases hr : (AddToLogPlain "" args).1 = 0 <;>
      simp [logCallPlain, h, hr, List.erase_cons_head]

theorem logCallPlain_constructed (st : ThreadState) (site : Nat)
    (args : List SArg) :
    (logCallPlain st site args).2.constructed = true := by
  by_cases h : site ∈ st.held
  · simp [logCallPlain, h]
  · by_cases hr : (AddToLogPlain "" args).1 = 0 <;>
      simp [logCallPlain, h, hr]

theorem addToLog_allVal (l : List Arg) :
    ∀ (st : ThreadState) (format : String),
      (∀ a ∈ l, argIsVal a = true) →
      AddToLog st format l = (0, format ++ argsText l, st) := by
  induction l with
  | nil =>
      intro st f _
      simp [AddToLog, argsText]
  | cons a rest ih =>
      intro st f hv
      have ha := hv a (List.mem_cons_self _ _)
      cases a with
      | plain p =>
          cases p with
          | val s =>
              have hr : ∀ a ∈ rest, argIsVal a = true :=
                fun a h => hv a (List.mem_cons_of_mem _ h)
              rw [show AddToLog st f (Arg.plain (SArg.val s) :: rest)
                    = AddToLog st (f ++ s) rest from rfl, ih st (f ++ s) hr]
              simp [argsText, argText, valText, str_append_assoc]
          | bad => simp [argIsVal] at ha
      | reentrant site inner text => simp [argIsVal] at ha

theorem addToLog_failAt (pre : List Arg) :
    ∀ (st : ThreadState) (format : String) (rest : List Arg),
      (∀ a ∈ pre, argIsVal a = true) →
      AddToLog st format (pre ++ Arg.plain SArg.bad :: rest)
        = (-1, format ++ argsText pre, st) := by
  induction pre with
  | nil =>
      intro st f rest _
      simp [AddToLog, argsText]
  | cons a pre ih =>
      intro st f rest hv
      have ha := hv a (List.mem_cons_self _ _)
      cases a with
      | plain p =>
          cases p with
          | val s =>
              have hp : ∀ a ∈ pre, argIsVal a = true :=
                fun a h => hv a (List.mem_cons_of_mem _ h)
              rw [show AddToLog st f ((Arg.plain (SArg.val s) :: pre)
                      ++ Arg.plain SArg.bad :: rest)
                    = AddToLog st (f ++ s) (pre ++ Arg.plain SArg.bad :: rest)
                   from rfl, ih st (f ++ s) rest hp]
              simp [argsText, argText, valText, str_append_assoc]
          | bad => simp [argIsVal] at ha
      | reentrant site inner text => simp [argIsVal] at ha

theorem addToLog_held (l : List Arg) :
    ∀ (st : ThreadState) (format : String),
      (AddToLog st format l).2.2.held = st.held := by
  induction l with
  | nil => intro st f; simp [AddToLog]
  | cons a rest ih =>
      intro st f
      cases a with
      | plain p =>
          cases p with
          | val s => simpa [AddToLog] using ih st (f ++ s)
          | bad => simp [AddToLog]
      | reentrant site inner text =>
          rw [show AddToLog st f (Arg.reentrant site inner text :: rest)
                = AddToLog (logCallPlain st site inner).2 (f ++ text) rest
               from rfl, ih _ _, logCallPlain_held]

theorem addToLog_constructed (l : List Arg) :
    ∀ (st : ThreadState) (format : String), st.constructed = true →
      (AddToLog st format l).2.2.constructed = true := by
  induction l with
  | nil => intro st f h; simpa [AddToLog] using h
  | cons a rest ih =>
      intro st f h
      cases a with
      | plain p =>
          cases p with
          | val s => exact ih st (f ++ s) h
          | bad => simpa [AddToLog] using h
      | reentrant site inner text =>
          exact ih _ _ (logCallPlain_constructed st site inner)

theorem logCall_notMem_allVal (st : ThreadState) (site : Nat) (l : List Arg)
    (h : site ∉ st.held) (hv : ∀ a ∈ l, argIsVal a = true) :
    logCall st site l
      = (0, { localLogs := st.localLogs ++ argsText l,
              held := st.held, constructed := true }) := by
  simp [logCall, h, addToLog_allVal l _ "" hv, String.empty_append,
    List.erase_cons_head]

theorem logCall_constructed (st : ThreadState) (site : Nat) (l : List Arg) :
    (logCall st site l).2.constructed = true := by
  by_cases h : site ∈ st.held
  · simp [logCall, h]
  · have hc := addToLog_constructed l
      { st with held := site :: st.held, constructed := true } "" rfl
    by_cases hr :
        (AddToLog { st with held := site :: st.held, constructed := true }
          "" l).1 = 0 <;>
      simp [logCall, h, hr, hc]

theorem runCalls_allVal (calls : List (Nat × List Arg)) :
    ∀ st : ThreadState, st.held = [] →
      (∀ c ∈ calls, ∀ a ∈ c.2, argIsVal a = true) →
      (runCalls st calls).localLogs = st.localLogs ++ callsText calls
      ∧ (runCalls st calls).held = [] := by
  induction calls with
  | nil =>
      intro st hheld _
      simp [runCalls, callsText, hheld]
  | cons c rest ih =>
      intro st hheld hv
      have hc : ∀ a ∈ c.2, argIsVal a = true := hv c (List.mem_cons_self _ _)
      have hr : ∀ d ∈ rest, ∀ a ∈ d.2, argIsVal a = true :=
        fun d hd => hv d (List.mem_cons_of_mem _ hd)
      have hmem : c.1 ∉ st.held := by rw [hheld]; exact List.not_mem_nil _
      have hcall := logCall_notMem_allVal st c.1 c.2 hmem hc
      have step : runCalls st (c :: rest)
          = runCalls { localLogs := st.localLogs ++ argsText c.2,
                       held := st.held, constructed := true } rest := by
        rw [show runCalls st (c :: rest)
              = runCalls (logCall st c.1 c.2).2 rest from rfl, hcall]
      rw [step]
      have := ih { localLogs := st.localLogs ++ argsText c.2,
                   held := st.held, constructed := true } hheld hr
      refine ⟨?_, this.2⟩
      rw [this.1]
      simp [callsText, str_append_assoc]

theorem runCalls_constructed_mono (calls : List (Nat × List Arg)) :
    ∀ st : ThreadState, st.constructed = true →
      (runCalls st calls).constructed = true := by
  induction calls with
  | nil => intro st h; simpa [runCalls] using h
  | cons c rest ih =>
      intro st _
      exact ih (logCall st c.1 c.2).2 (logCall_constructed st c.1 c.2)

theorem runCalls_constructed (calls : List (Nat × List Arg))
    (st : ThreadState) (h : calls ≠ []) :
    (runCalls st calls).constructed = true := by
  cases calls with
  | nil => exact absurd rfl h
  | cons c rest =>
      exact runCalls_constructed_mono rest (logCall st c.1 c.2).2
        (logCall_constructed st c.1 c.2)

theorem outputAllLogs_writes (g : GlobalState) :
    ∀ (logs : List String) (acc : List (Sink × String)),
      logs.foldl (fun ws l => ws ++ [(activeSink g, l)]) acc
        = acc ++ logs.map (fun l => (activeSink g, l)) := by
  intro logs
  induction logs with
  | nil => intro acc; simp
  | cons l rest ih =>
      intro acc
      simp [List.foldl_cons, ih, List.append_assoc]

theorem writtenTo_map_self (s : Sink) (logs : List String) :
    writtenTo s (logs.map (fun l => (s, l))) = joinAll logs := by
  induction logs with
  | nil => simp [writtenTo, joinAll]
  | cons l rest ih => simp [writtenTo, joinAll, ih]

theorem writtenTo_map_ne (s t : Sink) (logs : List String) (h : t ≠ s) :
    writtenTo t (logs.map (fun l => (s, l))) = "" := by
  induction logs with
  | nil => simp [writtenTo]
  | cons l rest ih =>
      simp [writtenTo, ih]
      intro he
      exact absurd he.symm h

/- =========================== Claim theorems ============================== -/

/-- C1: for every sequence of log calls made by a single thread in which every
call succeeds (the guard is acquired and every argument serializes), the block
the thread merges into the global log store equals the concatenation of the
serialized text of each call, in call order. -/
theorem thread_block_is_call_concat (g : GlobalState)
    (calls : List (Nat × List Arg)) (hne : calls ≠ [])
    (hv : ∀ c ∈ calls, ∀ a ∈ c.2, argIsVal a = true) :
    (threadLifetime g calls).1.logs = g.logs ++ [callsText calls] := by
  have h1 := runCalls_allVal calls initialThread rfl hv
  have h2 := runCalls_constructed calls initialThread hne
  unfold threadLifetime threadTeardown
  rw [if_pos h2]
  show g.logs ++ [(runCalls initialThread calls).localLogs]
    = g.logs ++ [callsText calls]
  rw [h1.1, show initialThread.localLogs = "" from rfl, String.empty_append]

/-- C1 witness: a thread calling log(1, " ", 2) and then log("x") produces the
single block "1 2x". -/
theorem thread_block_is_call_concat_witness :
    (exampleCalls ≠ [] ∧ ∀ c ∈ exampleCalls, ∀ a ∈ c.2, argIsVal a = true)
    ∧ (threadLifetime ⟨[], none⟩ exampleCalls).1.logs = ["1 2x"] := by
  refine ⟨⟨by decide, by decide⟩, ?_⟩
  exact (thread_block_is_call_concat ⟨[], none⟩ exampleCalls (by decide)
    (by decide)).trans (by decide)

/-- C2 counterexample: a log call through operator() instantiation 0 whose
argument serialization recursively calls log through the distinct operator()
instantiation 1 (the inner call log("nested") necessarily has an argument
type list different from the outer call, hence a distinct static thread_local
mtx). The inner call is not dropped: it appends "nested" to the thread
buffer before the outer call appends its own text "A", so the buffer reads
"nestedA" instead of the "A" the claim predicts. -/
theorem reentrant_cross_site_not_dropped_cex :
    (logCall initialThread 0
        [Arg.reentrant 1 [SArg.val "nested"] "A"]).2.localLogs = "nestedA"
    ∧ (logCall initialThread 0
        [Arg.reentrant 1 [SArg.val "nested"] "A"]).2.localLogs ≠ "A" := by
  decide

/-- C2 amended: a reentrant inner log call is dropped precisely when it enters
the same operator() instantiation as the in-progress outer call, because the
reentrancy guard mtx is a static thread_local of the member function template
and therefore per instantiation. Same instantiation: the inner call appends
nothing and the thread buffer receives exactly the outer calls own text.
Different instantiation: the inner call completes and appends its text before
the outer call appends its own. In both cases the outer call completes
normally, returning 0. -/
theorem reentrant_same_site_dropped (st : ThreadState) (osite isite : Nat)
    (inner : List SArg) (text : String) (hheld : st.held = [])
    (hv : ∀ a ∈ inner, isVal a = true) :
    (logCall st osite [Arg.reentrant isite inner text]).1 = 0
    ∧ (isite = osite →
        (logCall st osite [Arg.reentrant isite inner text]).2.localLogs
          = st.localLogs ++ text)
    ∧ (isite ≠ osite →
        (logCall st osite [Arg.reentrant isite inner text]).2.localLogs
          = st.localLogs ++ (sargsText inner ++ text)) := by
  have hmem : osite ∉ st.held := by rw [hheld]; exact List.not_mem_nil _
  by_cases hs : isite = osite
  · subst hs
    have hin : isite ∈
        ({ st with held := isite :: st.held, constructed := true }
          : ThreadState).held := List.mem_cons_self _ _
    have hdrop := logCallPlain_mem
      { st with held := isite :: st.held, constructed := true } isite inner hin
    refine ⟨?_, fun _ => ?_, fun h => absurd rfl h⟩ <;>
      simp [logCall, hmem, AddToLog, hdrop, String.empty_append,
        List.erase_cons_head]
  · have hnin : isite ∉
        ({ st with held := osite :: st.held, constructed := true }
          : ThreadState).held := by
        simp [hheld]
        exact hs
    have hrun := logCallPlain_notMem_allVal
      { st with held := osite :: st.held, constructed := true } isite inner
      hnin hv
    refine ⟨?_, fun h => absurd h hs, fun _ => ?_⟩ <;>
      simp [logCall, hmem, AddToLog, hrun, String.empty_append,
        List.erase_cons_head, str_append_assoc]

/-- C2 amended witness: with the inner call entering the same instantiation
(site 5) as the outer call, the inner call is dropped and the buffer holds
only the outer text. -/
theorem reentrant_same_site_dropped_witness :
    (initialThread.held = [] ∧ ∀ a ∈ [SArg.val "nested"], isVal a = true)
    ∧ (logCall initialThread 5
        [Arg.reentrant 5 [SArg.val "nested"] "A"]).2.localLogs
        = initialThread.localLogs ++ "A" := by
  refine ⟨⟨rfl, by decide⟩, ?_⟩
  exact (reentrant_same_site_dropped initialThread 5 5 [SArg.val "nested"]
    "A" rfl (by decide)).2.1 rfl

/-- C3: when serializing the Nth argument of a call fails, the call appends
nothing at all to the thread buffer (none of the text of the first N-1
arguments appears), returns the failure code -1, and leaves the reentrancy
guard released: the resulting thread state differs from the initial one only
in the merge guard having been constructed. -/
theorem serialization_failure_drops_call (st : ThreadState) (site : Nat)
    (pre rest : List Arg) (hsite : site ∉ st.held)
    (hv : ∀ a ∈ pre, argIsVal a = true) :
    logCall st site (pre ++ Arg.plain SArg.bad :: rest)
      = (-1, { st with constructed := true }) := by
  have hfail := addToLog_failAt pre
    { st with held := site :: st.held, constructed := true } "" rest hv
  simp [logCall, hsite, hfail, List.erase_cons_head]

/-- C3 witness: log(1, bad, 2) from a fresh thread returns -1 and leaves the
thread buffer empty and the guard free. -/
theorem serialization_failure_drops_call_witness :
    ((0 : Nat) ∉ initialThread.held
      ∧ ∀ a ∈ [Arg.plain (SArg.val "1")], argIsVal a = true)
    ∧ logCall initialThread 0
        ([Arg.plain (SArg.val "1")]
          ++ Arg.plain SArg.bad :: [Arg.plain (SArg.val "2")])
        = (-1, { initialThread with constructed := true }) := by
  refine ⟨⟨by decide, by decide⟩, ?_⟩
  exact serialization_failure_drops_call initialThread 0
    [Arg.plain (SArg.val "1")] [Arg.plain (SArg.val "2")] (by decide)
    (by decide)

/-- C4 counterexample: a thread lifetime with zero log calls performs zero
merge operations, not one: the thread_local guard merge_local_logs_to_global_
is constructed at its first odr-use on the thread, which only the BasicFLog
constructor performs, so on a thread that never logs no guard and hence no
merge ever runs. -/
theorem zero_call_thread_merges_zero_cex :
    (threadLifetime ⟨[], none⟩ []).2 = 0
    ∧ (threadLifetime ⟨[], none⟩ []).2 ≠ 1 := by
  decide

/-- C4 amended: a thread lifetime performs exactly one merge when the thread
made at least one log call (successful, failed, or dropped alike), and zero
merges when it made none. -/
theorem merge_count_one_iff_thread_logged (g : GlobalState)
    (calls : List (Nat × List Arg)) :
    (threadLifetime g calls).2 = if calls.isEmpty then 0 else 1 := by
  cases calls with
  | nil => simp [threadLifetime, runCalls, threadTeardown, initialThread]
  | cons c rest =>
      have h := runCalls_constructed (c :: rest) initialThread (by simp)
      unfold threadLifetime threadTeardown
      rw [if_pos h]
      simp

/-- C5: a CallOnExit guard constructed with a zero argument action runs that
action exactly once over its whole lifetime, namely at its destruction, and
an exception the action raises is caught and discarded rather than escaping
the destructor, regardless of how often trigger was called and of whether
the action returns normally or throws. -/
theorem callOnExit_runs_once_and_swallows {e : Type} (c : CallOnExit e)
    (n : Nat) :
    CallOnExit.lifetime c n = (1, none) := by
  induction n with
  | zero =>
      cases h : c.call_on_destroy <;>
        simp [CallOnExit.lifetime, CallOnExit.destruct, h]
  | succ n ih =>
      simpa [CallOnExit.lifetime, CallOnExit.trigger] using ih

/-- C6: OutputAllLogs writes every block stored in the global log store,
verbatim and in store order, to the active sink; when SetOutput was never
called (output_ is null) the active sink is the default std::clog error
stream and it receives the concatenation of all blocks. -/
theorem flush_writes_all_blocks_in_order (g : GlobalState) :
    (OutputAllLogs g).2 = g.logs.map (fun l => (activeSink g, l))
    ∧ (g.output = none →
        activeSink g = Sink.clog
        ∧ writtenTo Sink.clog (OutputAllLogs g).2 = joinAll g.logs) := by
  have hw : (OutputAllLogs g).2 = g.logs.map (fun l => (activeSink g, l)) := by
    show g.logs.foldl (fun ws l => ws ++ [(activeSink g, l)]) []
      = g.logs.map (fun l => (activeSink g, l))
    rw [outputAllLogs_writes g g.logs []]
    rfl
  refine ⟨hw, fun h => ?_⟩
  have hs : activeSink g = Sink.clog := by simp [activeSink, h]
  refine ⟨hs, ?_⟩
  rw [hw, hs, writtenTo_map_self]

/-- C6 witness: with two stored blocks and no installed sink, flush performs
the two writes to clog in store order and clog receives their
concatenation. -/
theorem flush_writes_all_blocks_in_order_witness :
    (⟨["a", "b"], none⟩ : GlobalState).output = none
    ∧ writtenTo Sink.clog (OutputAllLogs ⟨["a", "b"], none⟩).2 = "ab" := by
  refine ⟨rfl, ?_⟩
  exact ((flush_writes_all_blocks_in_order ⟨["a", "b"], none⟩).2
    rfl).2.trans (by decide)

/-- C7: when SetOutput installs sink a and then sink b before the flush runs,
the flushed text goes only to b, the sink installed last: b receives the
concatenation of all blocks while a and the default stream receive
nothing. -/
theorem sink_replacement_last_writer_wins (g : GlobalState) (a b : Nat)
    (hab : a ≠ b) :
    activeSink (SetOutput (SetOutput g a) b) = Sink.custom b
    ∧ writtenTo (Sink.custom b)
        (OutputAllLogs (SetOutput (SetOutput g a) b)).2 = joinAll g.logs
    ∧ writtenTo (Sink.custom a)
        (OutputAllLogs (SetOutput (SetOutput g a) b)).2 = ""
    ∧ writtenTo Sink.clog
        (OutputAllLogs (SetOutput (SetOutput g a) b)).2 = "" := by
  have hs : activeSink (SetOutput (SetOutput g a) b) = Sink.custom b := rfl
  have hlogs : (SetOutput (SetOutput g a) b).logs = g.logs := rfl
  have hw : (OutputAllLogs (SetOutput (SetOutput g a) b)).2
      = g.logs.map (fun l => (Sink.custom b, l)) := by
    show (SetOutput (SetOutput g a) b).logs.foldl
        (fun ws l => ws ++ [(activeSink (SetOutput (SetOutput g a) b), l)]) []
      = g.logs.map (fun l => (Sink.custom b, l))
    rw [outputAllLogs_writes (SetOutput (SetOutput g a) b), hs, hlogs]
    rfl
  refine ⟨hs, ?_, ?_, ?_⟩
  · rw [hw, writtenTo_map_self]
  · rw [hw, writtenTo_map_ne]
    simp [hab]
  · rw [hw, writtenTo_map_ne]
    simp

/-- C7 witness: with one stored block, sinks 0 then 1 installed, sink 1
receives the block text and sink 0 receives nothing. -/
theorem sink_replacement_last_writer_wins_witness :
    (0 : Nat) ≠ 1
    ∧ writtenTo (Sink.custom 1)
        (OutputAllLogs (SetOutput (SetOutput ⟨["a"], none⟩ 0) 1)).2 = "a"
    ∧ writtenTo (Sink.custom 0)
        (OutputAllLogs (SetOutput (SetOutput ⟨["a"], none⟩ 0) 1)).2 = "" := by
  have h := sink_replacement_last_writer_wins ⟨["a"], none⟩ 0 1 (by decide)
  exact ⟨by decide, h.2.1.trans (by decide), h.2.2.1⟩

/-- C8: destroying a CoroutineLock terminates the process abruptly with exit
code -1 exactly when the lock is still held; destruction of an unheld lock is
normal. -/
theorem coroutine_lock_destroy_while_held_fatal (m : CoroutineLock) :
    CoroutineLock.destruct m = some (-1) ↔ m.flag = true := by
  cases m with
  | mk f => cases f <;> simp [CoroutineLock.destruct]

/-- C8 witness: destroying a held lock exits with code -1. -/
theorem coroutine_lock_destroy_while_held_fatal_witness :
    CoroutineLock.destruct (CoroutineLock.mk true) = some (-1) :=
  (coroutine_lock_destroy_while_held_fatal (CoroutineLock.mk true)).mpr rfl

/-- C9: try_lock succeeds and marks the lock held exactly when it is not
already held and returns false with the state unchanged otherwise; unlock
throws exactly when the lock is not held; lock throws exactly when the lock
is already held. -/
theorem coroutine_lock_ops_spec (m : CoroutineLock) :
    ((CoroutineLock.try_lock m).1 = true ↔ m.flag = false)
    ∧ (m.flag = false →
        CoroutineLock.try_lock m = (true, { flag := true }))
    ∧ (m.flag = true → CoroutineLock.try_lock m = (false, m))
    ∧ (exceptOk (CoroutineLock.unlock m) = false ↔ m.flag = false)
    ∧ (exceptOk (CoroutineLock.lock m) = false ↔ m.flag = true) := by
  cases m with
  | mk f => cases f <;> decide

/-- C9 witness: the operation contracts evaluated on the unheld lock. -/
theorem coroutine_lock_ops_spec_witness :
    (((CoroutineLock.try_lock (CoroutineLock.mk false)).1 = true
        ↔ (CoroutineLock.mk false).flag = false)
      ∧ ((CoroutineLock.mk false).flag = false →
          CoroutineLock.try_lock (CoroutineLock.mk false)
            = (true, { flag := true }))
      ∧ ((CoroutineLock.mk false).flag = true →
          CoroutineLock.try_lock (CoroutineLock.mk false)
            = (false, CoroutineLock.mk false))
      ∧ (exceptOk (CoroutineLock.unlock (CoroutineLock.mk false)) = false
          ↔ (CoroutineLock.mk false).flag = false)
      ∧ (exceptOk (CoroutineLock.lock (CoroutineLock.mk false)) = false
          ↔ (CoroutineLock.mk false).flag = true)) :=
  coroutine_lock_ops_spec (CoroutineLock.mk false)

/-- C10: OutputAllLogs leaves the global log store unchanged, so running the
flush a second time performs exactly the same writes again, every stored
block verbatim to the active sink; nothing in the operation disables a later
flush. -/
theorem flush_reads_store_only (g : GlobalState) :
    (OutputAllLogs g).1 = g
    ∧ (OutputAllLogs (OutputAllLogs g).1).2 = (OutputAllLogs g).2
    ∧ (OutputAllLogs (OutputAllLogs g).1).2
        = g.logs.map (fun l => (activeSink g, l)) := by
  refine ⟨rfl, rfl, ?_⟩
  show g.logs.foldl (fun ws l => ws ++ [(activeSink g, l)]) []
    = g.logs.map (fun l => (activeSink g, l))
  rw [outputAllLogs_writes g g.logs []]
  rfl

end Flog
